import Mathlib

/-!
Shallow embedding of `stellar/tess_stars2px_mod.py` (MonoTools source slice).

The Python module computes TESS detector pixel coordinates from sky
coordinates.  Its numeric code runs on IEEE floats; here it is embedded over
an arbitrary linear ordered field `α` (instantiated at `ℝ` or `ℚ` in the
theorems), with the transcendental functions (`numpy.cos`, `numpy.arcsin`,
...) abstracted into a bundle `RMath α` of function parameters.  The bundle
`RMath.IsStd` pins the bundle to the genuine real functions, `np.arctan2 y x`
being modelled by `Complex.arg ⟨x, y⟩`.
-/

/-- The bundle of mathematical functions used by the Python module
(`np.pi`, `np.cos`, `np.sin`, `np.tan`, `np.sqrt`, `np.arcsin`,
`np.arccos`, `np.arctan`, `np.arctan2`). -/
structure RMath (α : Type) where
  pi : α
  cos : α → α
  sin : α → α
  tan : α → α
  sqrt : α → α
  arcsin : α → α
  arccos : α → α
  arctan : α → α
  arctan2 : α → α → α

/-- The real-valued instantiation of the function bundle. -/
def RMath.IsStd (M : RMath ℝ) : Prop :=
  M.pi = Real.pi ∧ M.cos = Real.cos ∧ M.sin = Real.sin ∧ M.tan = Real.tan ∧
  M.sqrt = Real.sqrt ∧ M.arcsin = Real.arcsin ∧ M.arccos = Real.arccos ∧
  M.arctan = Real.arctan ∧ M.arctan2 = fun y x => Complex.arg ⟨x, y⟩

variable {α : Type} [LinearOrderedField α]

/-- Source `deg2rad = np.pi / 180.0`, as recomputed throughout the module. -/
def deg2rad (M : RMath α) : α := M.pi / 180

/-- Source `np.mod(a, m)` on floats: `a - m * floor(a / m)`. -/
def fmod [FloorRing α] (a m : α) : α := a - m * ⌊a / m⌋

theorem fmod_eq_fract [FloorRing α] {m : α} (hm : m ≠ 0) (a : α) :
    fmod a m = m * Int.fract (a / m) := by
  unfold fmod Int.fract
  rw [mul_sub, mul_div_cancel₀ _ hm]

theorem fmod_nonneg [FloorRing α] {m : α} (hm : 0 < m) (a : α) : 0 ≤ fmod a m := by
  rw [fmod_eq_fract hm.ne.symm]
  exact mul_nonneg hm.le (Int.fract_nonneg _)

theorem fmod_lt [FloorRing α] {m : α} (hm : 0 < m) (a : α) : fmod a m < m := by
  rw [fmod_eq_fract hm.ne.symm]
  calc m * Int.fract (a / m) < m * 1 :=
        (mul_lt_mul_left hm).mpr (Int.fract_lt_one _)
    _ = m := mul_one m

theorem fmod_eq_self [FloorRing α] {a m : α} (hm : 0 < m) (h0 : 0 ≤ a) (h1 : a < m) :
    fmod a m = a := by
  unfold fmod
  have hfl : ⌊a / m⌋ = 0 := by
    rw [Int.floor_eq_zero_iff]
    exact ⟨div_nonneg h0 hm.le, (div_lt_one hm).mpr h1⟩
  rw [hfl]
  simp

theorem fmod_sub_period [FloorRing α] {m : α} (hm : m ≠ 0) (a : α) :
    fmod (a - m) m = fmod a m := by
  unfold fmod
  have hdiv : (a - m) / m = a / m - 1 := by
    field_simp
  have hfl : ⌊(a - m) / m⌋ = ⌊a / m⌋ - 1 := by
    rw [hdiv]
    exact_mod_cast Int.floor_sub_int (a / m) 1
  rw [hfl]
  push_cast
  ring

/-! ## `Levine_FPG`: the focal plane geometry model

The class owns per-camera Euler angles and optical constants, per-CCD
geometry, and the sky-to-spacecraft / sky-to-camera rotation matrices. -/

/-- The working arrays of a `Levine_FPG` instance (`self.eulcam`,
`self.optcon`, `self.ccdxy0`, `self.pixsz`, `self.ccdang`, `self.ccdtilt`,
`self.asymang`, `self.asymfac`, `self.rmat1`, `self.rmat4`,
`self.havePointing`). -/
structure Levine_FPG (α : Type) where
  eulcam : Fin 4 → Fin 3 → α
  optcon : Fin 4 → Fin 6 → α
  ccdxy0 : Fin 4 → Fin 4 → α × α
  pixsz : Fin 4 → Fin 4 → α × α
  ccdang : Fin 4 → Fin 4 → α
  ccdtilt : Fin 4 → Fin 4 → α × α
  asymang : Fin 4 → α
  asymfac : Fin 4 → α
  rmat1 : Matrix (Fin 3) (Fin 3) α
  rmat4 : Fin 4 → Matrix (Fin 3) (Fin 3) α
  havePointing : Bool

/-- Source `Levine_FPG.rotm1(ax, ang)`: single-axis rotation matrix.  The index
arithmetic `n2 = (n1+1) % 3`, `n3 = (n2+1) % 3` is `Fin 3` addition. -/
def rotm1 (M : RMath α) (ax : Fin 3) (ang : α) : Matrix (Fin 3) (Fin 3) α :=
  let n1 := ax
  let n2 := n1 + 1
  let n3 := n2 + 1
  Matrix.of fun i j =>
    if i = n1 ∧ j = n1 then 1
    else if i = n2 ∧ j = n2 then M.cos ang
    else if i = n3 ∧ j = n3 then M.cos ang
    else if i = n2 ∧ j = n3 then M.sin ang
    else if i = n3 ∧ j = n2 then -(M.sin ang)
    else 0

/-- Source `Levine_FPG.eulerm323(eul)`: 3-2-3 Euler rotation sequence. -/
def eulerm323 (M : RMath α) (eul : Fin 3 → α) : Matrix (Fin 3) (Fin 3) α :=
  let mat1 := rotm1 M 2 (eul 0)
  let mat2 := rotm1 M 1 (eul 1)
  let mata := mat2 * mat1
  let mat1b := rotm1 M 2 (eul 2)
  mat1b * mata

/-- Source `Levine_FPG.sky_to_sc_mat(sc_ra_dec_roll)`. -/
def sky_to_sc_mat (M : RMath α) (sc_ra_dec_roll : α × α × α) : Matrix (Fin 3) (Fin 3) α :=
  eulerm323 M
    ![deg2rad M * sc_ra_dec_roll.1,
      M.pi / 2 - deg2rad M * sc_ra_dec_roll.2.1,
      deg2rad M * sc_ra_dec_roll.2.2 + M.pi]

/-- Source `Levine_FPG.sc_to_cam_mat(eul)`. -/
def sc_to_cam_mat (M : RMath α) (eul : Fin 3 → α) : Matrix (Fin 3) (Fin 3) α :=
  eulerm323 M fun i => deg2rad M * eul i

/-- Source `Levine_FPG.sphereToCart(ras, decs)` (single point). -/
def sphereToCart (M : RMath α) (ras decs : α) : α × α × α :=
  let rarads := deg2rad M * ras
  let decrads := deg2rad M * decs
  (M.cos rarads * M.cos decrads, M.sin rarads * M.cos decrads, M.sin decrads)

/-- Pack the triple returned by `sphereToCart` into an `np.array`. -/
def tripleToVec (t : α × α × α) : Fin 3 → α := ![t.1, t.2.1, t.2.2]

/-- Source `Levine_FPG.cartToSphere(vec)`: returns `(ra, dec)` in radians, the
right ascension reduced by `np.mod(ra, 2*np.pi)`. -/
def cartToSphere [FloorRing α] (M : RMath α) (vec : Fin 3 → α) : α × α :=
  let norm := M.sqrt (vec 0 * vec 0 + vec 1 * vec 1 + vec 2 * vec 2)
  if norm > 0 then
    let dec := M.arcsin (vec 2 / norm)
    if vec 0 ≠ 0 ∨ vec 1 ≠ 0 then
      (fmod (M.arctan2 (vec 1) (vec 0)) (2 * M.pi), dec)
    else (0, dec)
  else (0, 0)

/-- Source `Levine_FPG.star_in_fov(lng, lat)`. -/
def star_in_fov (M : RMath α) (lng lat : α) : Bool :=
  if lat > 70 then
    let v := sphereToCart M lng lat
    let norm := M.sqrt (v.1 * v.1 + v.2.1 * v.2.1 + v.2.2 * v.2.2)
    if norm > 0 then
      let u := (v.1 / norm, v.2.1 / norm, v.2.2 / norm)
      let xlen := |M.arctan (u.1 / u.2.2)|
      let ylen := |M.arctan (u.2.1 / u.2.2)|
      decide (xlen ≤ 12.5 * deg2rad M) && decide (ylen ≤ 12.5 * deg2rad M)
    else false
  else false

/-- Source `Levine_FPG.xyrotate(angle_deg, xin)`. -/
def xyrotate (M : RMath α) (angle_deg : α) (xin : α × α) : α × α :=
  let ca := M.cos (deg2rad M * angle_deg)
  let sa := M.sin (deg2rad M * angle_deg)
  (ca * xin.1 + sa * xin.2, -sa * xin.1 + ca * xin.2)

/-- Source `Levine_FPG.make_az_asym(icam, xy)`. -/
def make_az_asym (M : RMath α) (G : Levine_FPG α) (icam : Fin 4) (xy : α × α) : α × α :=
  let xyp := xyrotate M (G.asymang icam) xy
  let xypa := (G.asymfac icam * xyp.1, xyp.2)
  xyrotate M (-(G.asymang icam)) xypa

/-- Source `Levine_FPG.optics_fp(icam, lng_deg, lat_deg)`: the distortion
polynomial sums `optcon[1:] * tanth ** (2.0*(ii-1))` for `ii = 1..5`. -/
def optics_fp (M : RMath α) (G : Levine_FPG α) (icam : Fin 4) (lng_deg lat_deg : α) :
    α × α :=
  let thetar := M.pi / 2 - lat_deg * deg2rad M
  let tanth := M.tan thetar
  let cphi := M.cos (deg2rad M * lng_deg)
  let sphi := M.sin (deg2rad M * lng_deg)
  let rfp0 := G.optcon icam 0 * tanth
  let rfp := (((List.finRange 6).drop 1).map
    (fun ii => G.optcon icam ii * tanth ^ (2 * ((ii : ℕ) - 1)))).sum
  make_az_asym M G icam (-cphi * rfp0 * rfp, -sphi * rfp0 * rfp)

/-- Source `CCDWD_T = 2048`: active CCD width in pixels. -/
def CCDWD_T : ℕ := 2048

/-- Source `CCDHT_T = 2058`: active CCD height in pixels. -/
def CCDHT_T : ℕ := 2058

/-- Source `ROWA = 44`: leading row-collateral width in pixels. -/
def ROWA : ℕ := 44

/-- Source `ROWB = 44`: trailing row-collateral width in pixels. -/
def ROWB : ℕ := 44

/-- Source `COLDK_T = 20`: column-collateral width in pixels. -/
def COLDK_T : ℕ := 20

/-- Source `Levine_FPG.mm_to_pix(icam, xy)`: quadrant-dispatched focal-plane
millimeter to (CCD index, CCD pixel, FITS pixel) conversion, translated
branch by branch from the source. -/
def mm_to_pix (M : RMath α) (G : Levine_FPG α) (icam : Fin 4) (xy : α × α) :
    Fin 4 × (α × α) × (α × α) :=
  if xy.1 ≥ 0 then
    if xy.2 ≥ 0 then
      let iccd : Fin 4 := 0
      let xyb := (xy.1 - (G.ccdxy0 icam iccd).1, xy.2 - (G.ccdxy0 icam iccd).2)
      let xyccd := xyrotate M (G.ccdang icam iccd) xyb
      let ccdpx := (xyccd.1 / (G.pixsz icam iccd).1 - 0.5,
                    xyccd.2 / (G.pixsz icam iccd).2 - 0.5)
      let fitpx := (((CCDWD_T : α) - ccdpx.1) + CCDWD_T + 2 * ROWA + ROWB - 1.0,
                    ((CCDHT_T : α) - ccdpx.2) + CCDHT_T + 2 * COLDK_T - 1.0)
      (iccd, ccdpx, fitpx)
    else
      let iccd : Fin 4 := 3
      let xyb := (xy.1 - (G.ccdxy0 icam iccd).1, xy.2 - (G.ccdxy0 icam iccd).2)
      let xyccd := xyrotate M (G.ccdang icam iccd) xyb
      let ccdpx := (xyccd.1 / (G.pixsz icam iccd).1 - 0.5,
                    xyccd.2 / (G.pixsz icam iccd).2 - 0.5)
      let fitpx := (ccdpx.1 + CCDWD_T + 2 * ROWA + ROWB, ccdpx.2)
      (iccd, ccdpx, fitpx)
  else
    if xy.2 ≥ 0 then
      let iccd : Fin 4 := 1
      let xyb := (xy.1 - (G.ccdxy0 icam iccd).1, xy.2 - (G.ccdxy0 icam iccd).2)
      let xyccd := xyrotate M (G.ccdang icam iccd) xyb
      let ccdpx := (xyccd.1 / (G.pixsz icam iccd).1 - 0.5,
                    xyccd.2 / (G.pixsz icam iccd).2 - 0.5)
      let fitpx := (((CCDWD_T : α) - ccdpx.1) + ROWA - 1.0,
                    ((CCDHT_T : α) - ccdpx.2) + CCDHT_T + 2 * COLDK_T - 1.0)
      (iccd, ccdpx, fitpx)
    else
      let iccd : Fin 4 := 2
      let xyb := (xy.1 - (G.ccdxy0 icam iccd).1, xy.2 - (G.ccdxy0 icam iccd).2)
      let xyccd := xyrotate M (G.ccdang icam iccd) xyb
      let ccdpx := (xyccd.1 / (G.pixsz icam iccd).1 - 0.5,
                    xyccd.2 / (G.pixsz icam iccd).2 - 0.5)
      let fitpx := (ccdpx.1 + ROWA, ccdpx.2)
      (iccd, ccdpx, fitpx)

/-! ### Specification-side restatement of `mm_to_pix` (for the refinement
claim): a quadrant→CCD dispatch function, one shared CCD-local pixel
computation, and the per-CCD FITS table from the specification. -/

/-- Spec wording: the quadrant of the sign of `(x, y)` selects the CCD,
`(+,+)→0`, `(−,+)→1`, `(−,−)→2`, `(+,−)→3`. -/
def quadToCcd_spec (x y : α) : Fin 4 :=
  if x ≥ 0 then (if y ≥ 0 then 0 else 3) else (if y ≥ 0 then 1 else 2)

/-- Spec wording: translate by the CCD origin offset, rotate by the CCD
rotation angle, divide by the pixel pitch, offset by `−0.5`. -/
def ccdLocal_spec (M : RMath α) (G : Levine_FPG α) (icam iccd : Fin 4) (xy : α × α) :
    α × α :=
  let xyb := (xy.1 - (G.ccdxy0 icam iccd).1, xy.2 - (G.ccdxy0 icam iccd).2)
  let xyccd := xyrotate M (G.ccdang icam iccd) xyb
  (xyccd.1 / (G.pixsz icam iccd).1 - 0.5, xyccd.2 / (G.pixsz icam iccd).2 - 0.5)

/-- Spec wording: the per-CCD FITS pixel formula table. -/
def fits_spec (iccd : Fin 4) (ccdpx : α × α) : α × α :=
  ![(((CCDWD_T : α) - ccdpx.1) + CCDWD_T + 2 * ROWA + ROWB - 1.0,
     ((CCDHT_T : α) - ccdpx.2) + CCDHT_T + 2 * COLDK_T - 1.0),
    (((CCDWD_T : α) - ccdpx.1) + ROWA - 1.0,
     ((CCDHT_T : α) - ccdpx.2) + CCDHT_T + 2 * COLDK_T - 1.0),
    (ccdpx.1 + ROWA, ccdpx.2),
    (ccdpx.1 + CCDWD_T + 2 * ROWA + ROWB, ccdpx.2)] iccd

/-- The specification's composition of the three pieces above. -/
def mm_to_pix_spec (M : RMath α) (G : Levine_FPG α) (icam : Fin 4) (xy : α × α) :
    Fin 4 × (α × α) × (α × α) :=
  let iccd := quadToCcd_spec xy.1 xy.2
  let ccdpx := ccdLocal_spec M G icam iccd xy
  (iccd, ccdpx, fits_spec iccd ccdpx)

/-! ## Calibration parameter dictionaries

`Levine_FPG.parm_dict_list` is a **class attribute** (`[{}, {}, {}, {}]`):
one list object shared by every instance; `read_levine_fpg_file` assigns
into it (`self.parm_dict_list[icam] = parm_dict`), mutating the shared
list.  We model the list as an explicit state value of type
`Fin 4 → CamParms α` threaded through construction, and a calibration file
as `Option (CamParms α)` (`some` = present and parseable, `none` = absent
or unparseable). -/

/-- The parameter dictionary for one camera: the keys that
`read_all_levine_fpg_files` reads back out of `parm_dict_list`. -/
structure CamParms (α : Type) where
  ang1 : α
  ang2 : α
  ang3 : α
  fl : α
  opt1 : α
  opt2 : α
  opt3 : α
  opt4 : α
  opt5 : α
  asymang : α
  asymfac : α
  x0 : Fin 4 → α
  y0 : Fin 4 → α
  pix_x : Fin 4 → α
  pix_y : Fin 4 → α
  ang : Fin 4 → α
  tilt_x : Fin 4 → α
  tilt_y : Fin 4 → α

/-- The four hard-coded fallback parameter tables of
`read_levine_fpg_file` (values copied verbatim from the source). -/
def hardParms : Fin 4 → CamParms α :=
  ![⟨0.101588, -36.022035, 90.048315, 145.948116,
     1.00000140, 0.24779006, -0.22681254, 10.78243356, -34.97817276, 0, 1,
     ![31.573417, -0.906060, -31.652818, 0.833161],
     ![31.551637, 31.536148, -31.438350, -31.458180],
     ![0.015, 0.015, 0.015, 0.015], ![0.015, 0.015, 0.015, 0.015],
     ![179.980833, 180.000000, -0.024851, 0.001488],
     ![0, 0, 0, 0], ![0, 0, 0, 0]⟩,
    ⟨-0.179412, -12.017260, 90.046500, 145.989933,
     1.00000140, 0.24069345, 0.15391120, 4.05433503, 3.43136895, 0, 1,
     ![31.653635, -0.827405, -31.543794, 0.922834],
     ![31.470291, 31.491388, -31.550699, -31.557268],
     ![0.015, 0.015, 0.015, 0.015], ![0.015, 0.015, 0.015, 0.015],
     ![180.010890, 180.000000, -0.006624, -0.015464],
     ![0, 0, 0, 0], ![0, 0, 0, 0]⟩,
    ⟨0.066596, 12.007750, -89.889085, 146.006602,
     1.00000140, 0.23452229, 0.33552009, 1.92009863, 12.48880182, 0, 1,
     ![31.615486, -0.832993, -31.548296, 0.896018],
     ![31.413644, 31.426621, -31.606976, -31.569542],
     ![0.015, 0.015, 0.015, 0.015], ![0.015, 0.015, 0.015, 0.015],
     ![179.993948, 180.000000, 0.000298, -0.006464],
     ![0, 0, 0, 0], ![0, 0, 0, 0]⟩,
    ⟨0.030756, 35.978116, -89.976802, 146.039793,
     1.00000140, 0.23920416, 0.13349450, 4.77768896, -1.75114744, 0, 1,
     ![31.575820, -0.890877, -31.630470, 0.824159],
     ![31.316510, 31.363511, -31.716942, -31.728751],
     ![0.015, 0.015, 0.015, 0.015], ![0.015, 0.015, 0.015, 0.015],
     ![179.968217, 180.000000, -0.024359, -0.024280],
     ![0, 0, 0, 0], ![0, 0, 0, 0]⟩]

/-- Source `Levine_FPG.read_levine_fpg_file(icam, fpg_file)`: the dictionary for
camera `icam` that ends up in the shared `parm_dict_list` slot — the
parsed file when present and parseable, else the hard-coded table. -/
def read_levine_fpg_file (icam : Fin 4) (fpg_file : Option (CamParms α)) : CamParms α :=
  match fpg_file with
  | some parsed => parsed
  | none => hardParms icam

/-- Source `Levine_FPG.read_all_levine_fpg_files(fpg_file_list)`: the shared
`parm_dict_list` after every slot has been overwritten.  When no file list
is given the default file names do not exist, so every camera falls back
to the hard-coded table. -/
def read_all_levine_fpg_files
    (fpg_file_list : Option (Fin 4 → Option (CamParms α))) : Fin 4 → CamParms α :=
  fun icam =>
    read_levine_fpg_file icam
      (match fpg_file_list with
       | none => none
       | some l => l icam)

/-- The second half of `read_all_levine_fpg_files` plus the tail of
`Levine_FPG.__init__`: parse the dictionaries into working arrays and,
when a boresight pointing is supplied, build the rotation matrices. -/
def fpgFromParms (M : RMath α) (pl : Fin 4 → CamParms α)
    (sc_ra_dec_roll : Option (α × α × α)) : Levine_FPG α :=
  let eulcam : Fin 4 → Fin 3 → α := fun ic => ![(pl ic).ang1, (pl ic).ang2, (pl ic).ang3]
  { eulcam := eulcam
    optcon := fun ic => ![(pl ic).fl, (pl ic).opt1, (pl ic).opt2, (pl ic).opt3,
                          (pl ic).opt4, (pl ic).opt5]
    ccdxy0 := fun ic iccd => ((pl ic).x0 iccd, (pl ic).y0 iccd)
    pixsz := fun ic iccd => ((pl ic).pix_x iccd, (pl ic).pix_y iccd)
    ccdang := fun ic iccd => (pl ic).ang iccd
    ccdtilt := fun ic iccd => ((pl ic).tilt_x iccd, (pl ic).tilt_y iccd)
    asymang := fun ic => (pl ic).asymang
    asymfac := fun ic => (pl ic).asymfac
    rmat1 := match sc_ra_dec_roll with
      | none => 0
      | some p => sky_to_sc_mat M p
    rmat4 := match sc_ra_dec_roll with
      | none => fun _ => 0
      | some p => fun ic => sc_to_cam_mat M (eulcam ic) * sky_to_sc_mat M p
    havePointing := sc_ra_dec_roll.isSome }

/-- Source `Levine_FPG.__init__(sc_ra_dec_roll, fpg_file_list)` as a state
transition on the shared class-level `parm_dict_list`: returns the
mutated shared list and the new instance. -/
def mkLevineFPG (M : RMath α) (parm_dict_list : Fin 4 → CamParms α)
    (sc_ra_dec_roll : Option (α × α × α))
    (fpg_file_list : Option (Fin 4 → Option (CamParms α))) :
    (Fin 4 → CamParms α) × Levine_FPG α :=
  let newList := read_all_levine_fpg_files fpg_file_list
  (newList, fpgFromParms M newList sc_ra_dec_roll)

/-- The value returned by `Levine_FPG.radec2pix`, together with the console
messages it prints. -/
structure Radec2pixResult (α : Type) where
  messages : List String
  inCamera : List ℕ
  ccdNum : List ℕ
  fitsxpos : List α
  fitsypos : List α
  ccdxpos : List α
  ccdypos : List α

/-- Source `Levine_FPG.radec2pix(ras, decs)`: map every target through all four
cameras; when no pointing was supplied, print
`Spacecraft Pointing Not specified!` and return the six empty arrays. -/
def radec2pix [FloorRing α] (M : RMath α) (G : Levine_FPG α) (ras decs : List α) :
    Radec2pixResult α :=
  if G.havePointing = true then
    let rows := (ras.zip decs).flatMap fun rd =>
      (List.finRange 4).flatMap fun j =>
        let v := sphereToCart M rd.1 rd.2
        let curVec := tripleToVec v
        let camVec := (G.rmat4 j).mulVec curVec
        let ll := cartToSphere M camVec
        let lng := ll.1 / deg2rad M
        let lat := ll.2 / deg2rad M
        if star_in_fov M lng lat then
          let xyfp := optics_fp M G j lng lat
          let r := mm_to_pix M G j xyfp
          [((j : ℕ) + 1, ((r.1 : ℕ) + 1, (r.2.2.1, r.2.2.2, r.2.1.1, r.2.1.2)))]
        else []
    { messages := []
      inCamera := rows.map fun r => r.1
      ccdNum := rows.map fun r => r.2.1
      fitsxpos := rows.map fun r => r.2.2.1
      fitsypos := rows.map fun r => r.2.2.2.1
      ccdxpos := rows.map fun r => r.2.2.2.2.1
      ccdypos := rows.map fun r => r.2.2.2.2.2 }
  else
    { messages := ["Spacecraft Pointing Not specified!"]
      inCamera := [], ccdNum := [], fitsxpos := [], fitsypos := []
      ccdxpos := [], ccdypos := [] }

/-- Source `get_radec_from_posangsep(ra, dec, pa, sep)`: spherical triangle
solution for the coordinate at a given position angle and separation. -/
def get_radec_from_posangsep [FloorRing α] (M : RMath α) (ra dec pa sep : α) : α × α :=
  let deg2radL := M.pi / 180
  let rad2deg := 180 / M.pi
  let twopi := 2 * M.pi
  let pidtwo := M.pi / 2
  let rar := ra * deg2radL
  let decr := dec * deg2radL
  let par := pa * deg2radL
  let sepr := sep * deg2radL
  let c := pidtwo - decr
  let bigB := par
  let a := sepr
  let b := M.arccos (M.cos c * M.cos a + M.sin c * M.sin a * M.cos bigB)
  let newdec := pidtwo - b
  let delalp := M.arccos
    (min ((M.cos sepr - M.sin decr * M.sin newdec) / (M.cos decr * M.cos newdec)) 1)
  let newra0 := if pa > 180 then rar - delalp else rar + delalp
  let newra := fmod newra0 twopi
  (newra * rad2deg, newdec * rad2deg)

/-! ## `ticIdSearch`: MAST identifier search polling loop

Each loop iteration issues the same filtered-TIC request and decodes the
JSON answer; only the top-level `status` string decides whether to loop.
The stream of statuses the archive would return is abstracted as
`statuses : ℕ → String`; the loop is embedded with explicit fuel, and
`none` means the loop is still running after that many iterations. -/

/-- The polling loop of `ticIdSearch`: starting at iteration `i`, return
`some k` for the first `k` whose status differs from `"EXECUTING"`,
within the given fuel. -/
def ticIdSearchPoll (statuses : ℕ → String) : ℕ → ℕ → Option ℕ
  | 0, _ => none
  | fuel + 1, i =>
    if statuses i ≠ "EXECUTING" then some i
    else ticIdSearchPoll statuses fuel (i + 1)

/-! ## `SectFromCoords`: sector acceptance window -/

/-- The acceptance test applied in `SectFromCoords` to one
(camera, CCD) hit with CCD-local coordinates `(ccdX, ccdY)`. -/
def sectorHitAccept (ccdX ccdY : α) : Bool :=
  let xUse := ccdX + 45.0
  let yUse := ccdY + 1.0
  let xMin := (44.0 : α)
  let ymaxCoord := (2049 : α)
  let xmaxCoord := (2093 : α)
  decide (xUse > xMin) && decide (yUse > 0) &&
    decide (xUse < xmaxCoord) && decide (yUse < ymaxCoord)

/-- The sector-collection loop of `SectFromCoords`: for each sector and
each (camera, CCD) hit the per-sector mapping returned, append the sector
number when the hit passes `sectorHitAccept`. -/
def collectSectors (secHits : List (ℤ × List (α × α))) : List ℤ :=
  secHits.flatMap fun p =>
    (p.2.filter fun h => sectorHitAccept h.1 h.2).map fun _ => p.1

/-! ## `TESS_Spacecraft_Pointing_Data` -/

/-- Source `TESS_Spacecraft_Pointing_Data.sectors = np.arange(1, 40)`. -/
def spd_sectors : List ℤ :=
  [1, 2, 3, 4, 5, 6, 7, 8, 9, 10, 11, 12, 13, 14, 15, 16, 17, 18, 19, 20,
   21, 22, 23, 24, 25, 26, 27, 28, 29, 30, 31, 32, 33, 34, 35, 36, 37, 38, 39]

/-- The hard-coded boresight right ascensions for sectors 1–39. -/
def spd_ras : List α :=
  [352.6844, 16.5571, 36.3138, 55.0070, 73.5382,
   92.0096, 110.2559, 128.1156, 145.9071,
   165.0475, 189.1247, 229.5885, 298.6671,
   276.7169, 280.3985, 282.4427, 351.2381,
   16.1103, 60.2026, 129.3867, 171.7951, 197.1008,
   217.2879, 261.4516, 265.6098, 270.1381,
   326.8525, 357.2944, 18.9190, 38.3564,
   57.6357, 77.1891, 96.5996, 115.2951,
   133.2035, 150.9497, 170.2540, 195.7176,
   242.1981]

/-- The hard-coded boresight declinations for sectors 1–39. -/
def spd_decs : List α :=
  [-64.8531, -54.0160, -44.2590, -36.6420, -31.9349,
   -30.5839, -32.6344, -37.7370, -45.3044,
   -54.8165, -65.5369, -75.1256, -76.3281,
   62.4756, 64.0671, 66.1422, 57.8456,
   67.9575, 76.2343, 75.2520, 65.1924, 53.7434,
   43.8074, 63.1181, 61.9383, 61.5637,
   -72.4265, -63.0056, -52.8296, -43.3178,
   -35.7835, -31.3957, -30.7848, -33.7790,
   -39.6871, -47.7512, -57.3725, -67.8307,
   -76.3969]

/-- The hard-coded boresight roll angles for sectors 1–39. -/
def spd_rolls : List α :=
  [-137.8468, -139.5665, -146.9616, -157.1698, -168.9483,
   178.6367, 166.4476, 155.3091, 145.9163,
   139.1724, 138.0761, 153.9773, -161.0622,
   32.2329, 55.4277, 79.4699, 41.9686,
   40.5453, 19.6463, 334.5689, 317.9495, 319.6992,
   327.4246, 317.2624, 339.5293, 0.6038,
   214.5061, 222.5216, 219.7970, 212.0441,
   201.2334, 188.6263, 175.5369, 163.1916,
   152.4006, 143.7306, 138.1685, 139.3519,
   161.5986]

/-- Source `TESS_Spacecraft_Pointing_Data.camSeps`. -/
def camSeps : Fin 4 → α := ![36.0, 12.0, 12.0, 36.0]

/-- Source `np.where(xs == t)[0]`: the indices at which `xs` equals `t`. -/
def whereEq (xs : List ℤ) (t : ℤ) : List ℕ :=
  (List.range xs.length).filter fun i => xs.getD i 0 == t

/-- Source `camposangs`: position angles of the four cameras for a given roll. -/
def camposangs (roll : α) : Fin 4 → α :=
  ![180.0 - roll, 180.0 - roll, 360.0 - roll, 360.0 - roll]

/-- The state of a constructed `TESS_Spacecraft_Pointing_Data` instance. -/
structure TESS_SPD (α : Type) where
  sectors : List ℤ
  ras : List α
  decs : List α
  rolls : List α
  camRa : List (Fin 4 → α)
  camDec : List (Fin 4 → α)
  fpgObjs : List (Levine_FPG α)

/-- Source `TESS_Spacecraft_Pointing_Data.__init__(trySector, fpgParmFileList)`:
optionally filter the fixed tables to one requested sector, derive the
camera boresights, and build one `Levine_FPG` per retained sector
(threading the shared `parm_dict_list` state through the constructions). -/
def mkTESS_SPD [FloorRing α] (M : RMath α) (parm_dict_list : Fin 4 → CamParms α)
    (trySector : Option ℤ) (fpgParmFileList : Option (Fin 4 → Option (CamParms α))) :
    (Fin 4 → CamParms α) × TESS_SPD α :=
  let tables : List ℤ × List α × List α × List α :=
    match trySector with
    | none => (spd_sectors, spd_ras, spd_decs, spd_rolls)
    | some t =>
      let idx := whereEq spd_sectors t
      (idx.map (fun i => spd_sectors.getD i 0),
       idx.map (fun i => (spd_ras : List α).getD i 0),
       idx.map (fun i => (spd_decs : List α).getD i 0),
       idx.map (fun i => (spd_rolls : List α).getD i 0))
  let sectors := tables.1
  let ras := tables.2.1
  let decs := tables.2.2.1
  let rolls := tables.2.2.2
  let nPoints := sectors.length
  let camRaDec : List (Fin 4 → α × α) :=
    (List.range nPoints).map fun iPnt => fun iCam =>
      get_radec_from_posangsep M (ras.getD iPnt 0) (decs.getD iPnt 0)
        (fmod (camposangs (rolls.getD iPnt 0) iCam) 360.0) (camSeps iCam)
  let built := (List.range nPoints).foldl
    (fun st iPnt =>
      let r := mkLevineFPG M st.1
        (some (ras.getD iPnt 0, decs.getD iPnt 0, rolls.getD iPnt 0)) fpgParmFileList
      (r.1, st.2 ++ [r.2]))
    (parm_dict_list, ([] : List (Levine_FPG α)))
  (built.1,
   { sectors := sectors, ras := ras, decs := decs, rolls := rolls
     camRa := camRaDec.map fun f => fun iCam => (f iCam).1
     camDec := camRaDec.map fun f => fun iCam => (f iCam).2
     fpgObjs := built.2 })

/-- The output guarantee of `get_radec_from_posangsep`: right ascension in
`[0, 360)` degrees and declination in `[−90, 90]` degrees. -/
def InRaDecRange (p : ℝ × ℝ) : Prop :=
  0 ≤ p.1 ∧ p.1 < 360 ∧ -90 ≤ p.2 ∧ p.2 ≤ 90

/-! ## Claims -/

/-- C1: for every camera index and focal-plane point, `mm_to_pix` selects
the CCD by the quadrant of the sign of `(x, y)` (`(+,+)→0`, `(−,+)→1`,
`(−,−)→2`, `(+,−)→3`), computes CCD-local pixels by translate / rotate /
divide-by-pitch / offset `−0.5`, and computes FITS pixels by the
specification's per-CCD formula table with `CCDWD_T = 2048`,
`CCDHT_T = 2058`, `ROWA = ROWB = 44`, `COLDK_T = 20`. -/
theorem mm_to_pix_quadrant_spec (M : RMath α) (G : Levine_FPG α) (icam : Fin 4)
    (xy : α × α) : mm_to_pix M G icam xy = mm_to_pix_spec M G icam xy := by
  unfold mm_to_pix mm_to_pix_spec quadToCcd_spec ccdLocal_spec fits_spec
  split_ifs <;> rfl

/-- C9: the quadrant sign tests of `mm_to_pix` are non-strict: a point
with `x = 0` goes to CCD 0 (`y ≥ 0`) or CCD 3 (`y < 0`); a point with
`y = 0` goes to CCD 0 (`x ≥ 0`) or CCD 1 (`x < 0`); a zero coordinate
never selects a negative-side CCD. -/
theorem mm_to_pix_zero_sign (M : RMath α) (G : Levine_FPG α) (icam : Fin 4) (x y : α) :
    (mm_to_pix M G icam (0, y)).1 = (if y ≥ 0 then (0 : Fin 4) else 3) ∧
    (mm_to_pix M G icam (x, 0)).1 = (if x ≥ 0 then (0 : Fin 4) else 1) := by
  constructor
  · unfold mm_to_pix
    rcases le_or_lt 0 y with hy | hy
    · rw [if_pos (le_refl (0 : α)), if_pos hy, if_pos hy]
    · rw [if_pos (le_refl (0 : α)), if_neg (not_le.mpr hy), if_neg (not_le.mpr hy)]
  · unfold mm_to_pix
    rcases le_or_lt 0 x with hx | hx
    · rw [if_pos hx, if_pos (le_refl (0 : α)), if_pos hx]
    · rw [if_neg (not_le.mpr hx), if_pos (le_refl (0 : α)),
        if_neg (not_le.mpr hx)]

/-- C4 (counterexample): for axis 1 the claim's sine placement fails — the
cross term **above** the diagonal, entry `(0, 2)`, holds `−sin(angle)`,
not `+sin(angle)`; at `angle = π/2` it equals `−1 ≠ sin(π/2) = 1`. -/
theorem rotm1_above_diagonal_counterexample :
    rotm1 (⟨Real.pi, Real.cos, Real.sin, Real.tan, Real.sqrt, Real.arcsin,
        Real.arccos, Real.arctan, fun y x => Complex.arg ⟨x, y⟩⟩ : RMath ℝ)
      1 (Real.pi / 2) 0 2 ≠ Real.sin (Real.pi / 2) := by
  intro h
  have h2 : -Real.sin (Real.pi / 2) = Real.sin (Real.pi / 2) := h
  rw [Real.sin_pi_div_two] at h2
  norm_num at h2

/-- C4 (amended): `rotm1 ax ang` has `1` at `(ax, ax)`, `cos ang` at the
two remaining diagonal entries, `+sin ang` at the cross term `(n2, n3)`
and `−sin ang` at `(n3, n2)`, where `n2 = ax+1`, `n3 = ax+2` cyclically —
for axes 0 and 2 the `+sin` lies above the diagonal, for axis 1 below. -/
theorem rotm1_entries (M : RMath α) (ax : Fin 3) (ang : α) :
    rotm1 M ax ang ax ax = 1 ∧
    rotm1 M ax ang (ax + 1) (ax + 1) = M.cos ang ∧
    rotm1 M ax ang (ax + 2) (ax + 2) = M.cos ang ∧
    rotm1 M ax ang (ax + 1) (ax + 2) = M.sin ang ∧
    rotm1 M ax ang (ax + 2) (ax + 1) = -(M.sin ang) := by
  fin_cases ax <;> exact ⟨rfl, rfl, rfl, rfl, rfl⟩

/-- C6: a `Levine_FPG` constructed without a boresight pointing has
`havePointing = false`, and `radec2pix` on it prints
`Spacecraft Pointing Not specified!` and returns the six empty arrays,
for every input list. -/
theorem radec2pix_no_pointing [FloorRing α] (M : RMath α)
    (parm_dict_list : Fin 4 → CamParms α)
    (fpg_file_list : Option (Fin 4 → Option (CamParms α))) (ras decs : List α) :
    ((mkLevineFPG M parm_dict_list none fpg_file_list).2).havePointing = false ∧
    radec2pix M (mkLevineFPG M parm_dict_list none fpg_file_list).2 ras decs =
      { messages := ["Spacecraft Pointing Not specified!"],
        inCamera := [], ccdNum := [], fitsxpos := [], fitsypos := [],
        ccdxpos := [], ccdypos := [] } :=
  ⟨rfl, rfl⟩

/-- C7 (counterexample): `parm_dict_list` is class-level state shared by
all instances; constructing a second model from a calibration file with a
different `ang1_cam1` changes the dictionary list observable through the
first instance (after the first default construction it held `0.101588`
for camera 0; after the second construction it holds `1`). -/
theorem parm_dict_list_shared_mutation :
    ((mkLevineFPG (⟨0, id, id, id, id, id, id, id, fun _ _ => 0⟩ : RMath ℚ)
        (mkLevineFPG (⟨0, id, id, id, id, id, id, id, fun _ _ => 0⟩ : RMath ℚ)
          hardParms none none).1
        none (some fun _ => some { hardParms 0 with ang1 := 1 })).1 0).ang1 ≠
      (((mkLevineFPG (⟨0, id, id, id, id, id, id, id, fun _ _ => 0⟩ : RMath ℚ)
          hardParms none none).1 0).ang1) := by
  simp only [mkLevineFPG, read_all_levine_fpg_files, read_levine_fpg_file, hardParms,
    Matrix.cons_val_zero]
  norm_num

/-- C7 (amended): construction fully overwrites the shared
`parm_dict_list` and reads back only what it wrote, so the constructed
shared state and instance are independent of the prior shared state —
derived arrays of earlier instances are never changed, but the shared
dictionary list itself is replaced on every construction. -/
theorem mkLevineFPG_state_independent (M : RMath α)
    (s1 s2 : Fin 4 → CamParms α) (sc_ra_dec_roll : Option (α × α × α))
    (fpg_file_list : Option (Fin 4 → Option (CamParms α))) :
    mkLevineFPG M s1 sc_ra_dec_roll fpg_file_list =
      mkLevineFPG M s2 sc_ra_dec_roll fpg_file_list := rfl

theorem ticIdSearchPoll_none (statuses : ℕ → String)
    (h : ∀ n, statuses n = "EXECUTING") :
    ∀ fuel i, ticIdSearchPoll statuses fuel i = none := by
  intro fuel
  induction fuel with
  | zero => intro i; rfl
  | succ n ih =>
    intro i
    simp only [ticIdSearchPoll]
    rw [if_neg (by simp [h i])]
    exact ih (i + 1)

theorem ticIdSearchPoll_exits (statuses : ℕ → String) :
    ∀ fuel i k, i ≤ k → k < i + fuel → statuses k ≠ "EXECUTING" →
      (∀ j, i ≤ j → j < k → statuses j = "EXECUTING") →
      ticIdSearchPoll statuses fuel i = some k := by
  intro fuel
  induction fuel with
  | zero => intro i k hik hk _ _; omega
  | succ n ih =>
    intro i k hik hk hne hall
    simp only [ticIdSearchPoll]
    by_cases hi : statuses i ≠ "EXECUTING"
    · rw [if_pos hi]
      have hik2 : i = k := by
        by_contra hne2
        exact hi (hall i le_rfl (lt_of_le_of_ne hik hne2))
      rw [hik2]
    · rw [if_neg hi]
      push_neg at hi
      have hik3 : i ≠ k := fun hh => hne (hh ▸ hi)
      exact ih (i + 1) k (by omega) (by omega) hne
        (fun j hj1 hj2 => hall j (by omega) hj2)

/-- C8: the `ticIdSearch` polling loop terminates exactly when a response
status differs from `"EXECUTING"`: it exits at the first such iteration,
and if every response is `"EXECUTING"` it never terminates (no fuel
suffices) — there is no retry cap, backoff, or local timeout. -/
theorem ticIdSearch_polling (statuses : ℕ → String) :
    ((∀ n, statuses n = "EXECUTING") →
      ∀ fuel i, ticIdSearchPoll statuses fuel i = none) ∧
    (∀ k, statuses k ≠ "EXECUTING" → (∀ j, j < k → statuses j = "EXECUTING") →
      ∀ fuel, k < fuel → ticIdSearchPoll statuses fuel 0 = some k) :=
  ⟨fun h => ticIdSearchPoll_none statuses h,
   fun k hk hall fuel hfuel =>
     ticIdSearchPoll_exits statuses fuel 0 k (Nat.zero_le k) (by omega) hk
       (fun j _ hj => hall j hj)⟩

/-- C8 (witness): with all-`"EXECUTING"` responses the loop is still
running after 7 iterations; with the first non-`"EXECUTING"` response at
index 2 the loop exits there. -/
theorem ticIdSearch_polling_witness :
    ticIdSearchPoll (fun _ => "EXECUTING") 7 0 = none ∧
    ticIdSearchPoll (fun n => if n < 2 then "EXECUTING" else "COMPLETE") 5 0 = some 2 :=
  ⟨(ticIdSearch_polling (fun _ => "EXECUTING")).1 (fun _ => rfl) 7 0,
   (ticIdSearch_polling (fun n => if n < 2 then "EXECUTING" else "COMPLETE")).2 2
     (by decide) (fun j hj => by interval_cases j <;> rfl) 5 (by omega)⟩

theorem sectorHitAccept_iff (x y : α) :
    sectorHitAccept x y = true ↔
      (44 < x + 45.0 ∧ x + 45.0 < 2093 ∧ 0 < y + 1.0 ∧ y + 1.0 < 2049) := by
  have h44 : (44.0 : α) = 44 := by norm_num
  unfold sectorHitAccept
  simp only [h44, Bool.and_eq_true, decide_eq_true_eq, gt_iff_lt]
  tauto

/-- C2: in `SectFromCoords`, a (camera, CCD) hit passes the acceptance
test iff `44 < ccdX + 45.0 < 2093` and `0 < ccdY + 1.0 < 2049`, and a
sector number enters the result list iff one of its hits satisfies that
window. -/
theorem sectFromCoords_window (x y : α) (s : ℤ)
    (secHits : List (ℤ × List (α × α))) :
    (sectorHitAccept x y = true ↔
      (44 < x + 45.0 ∧ x + 45.0 < 2093 ∧ 0 < y + 1.0 ∧ y + 1.0 < 2049)) ∧
    (s ∈ collectSectors secHits ↔
      ∃ p ∈ secHits, p.1 = s ∧ ∃ h ∈ p.2,
        44 < h.1 + 45.0 ∧ h.1 + 45.0 < 2093 ∧ 0 < h.2 + 1.0 ∧ h.2 + 1.0 < 2049) := by
  refine ⟨sectorHitAccept_iff x y, ?_⟩
  unfold collectSectors
  simp only [List.mem_flatMap, List.mem_map, List.mem_filter, sectorHitAccept_iff]
  constructor
  · rintro ⟨p, hp, ⟨h, ⟨hmem, hcond⟩, heq⟩⟩
    exact ⟨p, hp, heq, h, hmem, hcond⟩
  · rintro ⟨p, hp, heq, h, hmem, hcond⟩
    exact ⟨p, hp, h, ⟨hmem, hcond⟩, heq⟩

theorem whereEq_spd_sectors_empty {t : ℤ} (ht : t < 1 ∨ 39 < t) :
    whereEq spd_sectors t = [] := by
  unfold whereEq spd_sectors
  rw [List.filter_eq_nil_iff]
  intro i hi
  simp only [List.length_cons, List.length_nil, List.mem_range] at hi
  interval_cases i <;> simp <;> omega

/-- C10: constructing `TESS_Spacecraft_Pointing_Data` with a `trySector`
outside the sector table (any integer outside 1–39) succeeds and yields a
catalog whose sector, ra, dec and roll arrays are empty and which holds
zero `Levine_FPG` models. -/
theorem tessSPD_unknown_sector_empty [FloorRing α] (M : RMath α)
    (parm_dict_list : Fin 4 → CamParms α)
    (fpgParmFileList : Option (Fin 4 → Option (CamParms α)))
    (t : ℤ) (ht : t < 1 ∨ 39 < t) :
    (mkTESS_SPD M parm_dict_list (some t) fpgParmFileList).2.sectors = [] ∧
    (mkTESS_SPD M parm_dict_list (some t) fpgParmFileList).2.ras = [] ∧
    (mkTESS_SPD M parm_dict_list (some t) fpgParmFileList).2.decs = [] ∧
    (mkTESS_SPD M parm_dict_list (some t) fpgParmFileList).2.rolls = [] ∧
    (mkTESS_SPD M parm_dict_list (some t) fpgParmFileList).2.fpgObjs = [] := by
  have hw := whereEq_spd_sectors_empty ht
  refine ⟨?_, ?_, ?_, ?_, ?_⟩ <;>
    simp [mkTESS_SPD, hw]

/-- C10 (witness): `trySector = 0` is outside 1–39 and yields the empty
catalog. -/
theorem tessSPD_unknown_sector_empty_witness :
    ((0 : ℤ) < 1 ∨ 39 < (0 : ℤ)) ∧
    ((mkTESS_SPD (⟨0, id, id, id, id, id, id, id, fun _ _ => 0⟩ : RMath ℚ)
        hardParms (some 0) none).2.sectors = [] ∧
      (mkTESS_SPD (⟨0, id, id, id, id, id, id, id, fun _ _ => 0⟩ : RMath ℚ)
        hardParms (some 0) none).2.ras = [] ∧
      (mkTESS_SPD (⟨0, id, id, id, id, id, id, id, fun _ _ => 0⟩ : RMath ℚ)
        hardParms (some 0) none).2.decs = [] ∧
      (mkTESS_SPD (⟨0, id, id, id, id, id, id, id, fun _ _ => 0⟩ : RMath ℚ)
        hardParms (some 0) none).2.rolls = [] ∧
      (mkTESS_SPD (⟨0, id, id, id, id, id, id, id, fun _ _ => 0⟩ : RMath ℚ)
        hardParms (some 0) none).2.fpgObjs = []) :=
  ⟨Or.inl (by norm_num),
   tessSPD_unknown_sector_empty (⟨0, id, id, id, id, id, id, id, fun _ _ => 0⟩ : RMath ℚ)
     hardParms none 0 (Or.inl (by norm_num))⟩

theorem get_radec_shape [FloorRing α] (M : RMath α) (ra dec pa sep : α) :
    ∃ u v, get_radec_from_posangsep M ra dec pa sep =
      (fmod u (2 * M.pi) * (180 / M.pi),
       (M.pi / 2 - M.arccos v) * (180 / M.pi)) := by
  unfold get_radec_from_posangsep
  exact ⟨_, _, rfl⟩

/-- C3: for every input, `get_radec_from_posangsep` returns a right
ascension in `[0°, 360°)` and a declination in `[−90°, 90°]`, with no
error path; as `get_radec_shape` records, only the Δα ratio passes
through a `min · 1` clamp, while the inverse cosine producing the new
declination is applied to its argument unguarded. -/
theorem get_radec_from_posangsep_range (M : RMath ℝ) (hM : M.IsStd)
    (ra dec pa sep : ℝ) :
    InRaDecRange (get_radec_from_posangsep M ra dec pa sep) := by
  obtain ⟨u, v, heq⟩ := get_radec_shape M ra dec pa sep
  obtain ⟨hpi, _, _, _, _, _, hacos, _, _⟩ := hM
  unfold InRaDecRange
  rw [heq, hpi, hacos]
  have hpipos := Real.pi_pos
  have hpine := Real.pi_ne_zero
  have ht : (0 : ℝ) < 180 / Real.pi := by positivity
  have h2pi : (0 : ℝ) < 2 * Real.pi := by positivity
  have hb0 := Real.arccos_nonneg v
  have hb1 := Real.arccos_le_pi v
  have hr0 := fmod_nonneg h2pi u
  have hr1 := fmod_lt h2pi u
  have h90 : Real.pi / 2 * (180 / Real.pi) = 90 := by
    field_simp
    ring
  have hexp : (Real.pi / 2 - Real.arccos v) * (180 / Real.pi) =
      Real.pi / 2 * (180 / Real.pi) - Real.arccos v * (180 / Real.pi) := by
    ring
  have hb0t : 0 ≤ Real.arccos v * (180 / Real.pi) := mul_nonneg hb0 ht.le
  have hb1t : Real.arccos v * (180 / Real.pi) ≤ 180 := by
    calc Real.arccos v * (180 / Real.pi)
        ≤ Real.pi * (180 / Real.pi) := mul_le_mul_of_nonneg_right hb1 ht.le
      _ = 180 := by field_simp
  refine ⟨mul_nonneg hr0 ht.le, ?_, ?_, ?_⟩
  · have h360 : 2 * Real.pi * (180 / Real.pi) = 360 := by
      field_simp
      ring
    have hlt := mul_lt_mul_of_pos_right hr1 ht
    show fmod u (2 * Real.pi) * (180 / Real.pi) < 360
    linarith
  · show -90 ≤ (Real.pi / 2 - Real.arccos v) * (180 / Real.pi)
    rw [hexp, h90]
    linarith
  · show (Real.pi / 2 - Real.arccos v) * (180 / Real.pi) ≤ 90
    rw [hexp, h90]
    linarith

/-- C3 (witness): the guarantee instantiated at the real functions and a
concrete input. -/
theorem get_radec_from_posangsep_range_witness :
    RMath.IsStd ⟨Real.pi, Real.cos, Real.sin, Real.tan, Real.sqrt, Real.arcsin,
      Real.arccos, Real.arctan, fun y x => Complex.arg ⟨x, y⟩⟩ ∧
    InRaDecRange (get_radec_from_posangsep
      ⟨Real.pi, Real.cos, Real.sin, Real.tan, Real.sqrt, Real.arcsin,
       Real.arccos, Real.arctan, fun y x => Complex.arg ⟨x, y⟩⟩ 10 20 30 40) :=
  ⟨⟨rfl, rfl, rfl, rfl, rfl, rfl, rfl, rfl, rfl⟩,
   get_radec_from_posangsep_range _
     ⟨rfl, rfl, rfl, rfl, rfl, rfl, rfl, rfl, rfl⟩ 10 20 30 40⟩

theorem cartToSphere_unit_eval (M : RMath ℝ) (hsqrt : M.sqrt = Real.sqrt)
    (v0 v1 v2 : ℝ) (hnorm : v0 * v0 + v1 * v1 + v2 * v2 = 1)
    (hv : v0 ≠ 0 ∨ v1 ≠ 0) :
    cartToSphere M ![v0, v1, v2] =
      (fmod (M.arctan2 v1 v0) (2 * M.pi), M.arcsin v2) := by
  have e0 : (![v0, v1, v2] : Fin 3 → ℝ) 0 = v0 := rfl
  have e1 : (![v0, v1, v2] : Fin 3 → ℝ) 1 = v1 := rfl
  have e2 : (![v0, v1, v2] : Fin 3 → ℝ) 2 = v2 := rfl
  simp only [cartToSphere, e0, e1, e2, hnorm, hsqrt, Real.sqrt_one]
  rw [if_pos (show (1 : ℝ) > 0 from one_pos), if_pos hv, div_one]

theorem roundtrip_core (M : RMath ℝ) (hpi : M.pi = Real.pi)
    (hsqrt : M.sqrt = Real.sqrt) (hasin : M.arcsin = Real.arcsin)
    (hatan2 : M.arctan2 = fun y x => Complex.arg ⟨x, y⟩)
    (rr dr : ℝ) (hrr0 : 0 ≤ rr) (hrr1 : rr < 2 * Real.pi)
    (hdr1 : -(Real.pi / 2) < dr) (hdr2 : dr < Real.pi / 2) :
    cartToSphere M
      ![Real.cos rr * Real.cos dr, Real.sin rr * Real.cos dr, Real.sin dr] =
      (rr, dr) := by
  have hpipos := Real.pi_pos
  have hcosdr : 0 < Real.cos dr := Real.cos_pos_of_mem_Ioo ⟨hdr1, hdr2⟩
  have hnorm : Real.cos rr * Real.cos dr * (Real.cos rr * Real.cos dr) +
      Real.sin rr * Real.cos dr * (Real.sin rr * Real.cos dr) +
      Real.sin dr * Real.sin dr = 1 := by
    have h1 := Real.sin_sq_add_cos_sq rr
    have h2 := Real.sin_sq_add_cos_sq dr
    nlinarith [h1, h2]
  have hv : Real.cos rr * Real.cos dr ≠ 0 ∨ Real.sin rr * Real.cos dr ≠ 0 := by
    by_cases hc0 : Real.cos rr = 0
    · right
      have hs0 : Real.sin rr ≠ 0 := by
        intro h
        have hpyth := Real.sin_sq_add_cos_sq rr
        rw [h, hc0] at hpyth
        norm_num at hpyth
      exact mul_ne_zero hs0 hcosdr.ne'
    · exact Or.inl (mul_ne_zero hc0 hcosdr.ne')
  rw [cartToSphere_unit_eval M hsqrt _ _ _ hnorm hv, hpi, hasin, hatan2]
  simp only [Prod.mk.injEq]
  constructor
  · show fmod
      (Complex.arg ⟨Real.cos rr * Real.cos dr, Real.sin rr * Real.cos dr⟩)
      (2 * Real.pi) = rr
    have hz : (⟨Real.cos rr * Real.cos dr, Real.sin rr * Real.cos dr⟩ : ℂ) =
        (Real.cos dr : ℂ) * ((Real.cos rr : ℂ) + (Real.sin rr : ℂ) * Complex.I) := by
      apply Complex.ext <;>
        simp [Complex.mul_re, Complex.mul_im, Complex.add_re, Complex.add_im,
          Complex.ofReal_re, Complex.ofReal_im, Complex.I_re, Complex.I_im,
          Complex.cos_ofReal_re, Complex.sin_ofReal_re] <;>
        ring
    rw [hz, Complex.arg_real_mul _ hcosdr]
    rcases le_or_lt rr Real.pi with hle | hgt
    · rw [Complex.ofReal_cos, Complex.ofReal_sin,
        Complex.arg_cos_add_sin_mul_I ⟨by linarith, hle⟩]
      exact fmod_eq_self (by positivity) hrr0 hrr1
    · rw [← Real.cos_sub_two_pi rr, ← Real.sin_sub_two_pi rr,
        Complex.ofReal_cos, Complex.ofReal_sin,
        Complex.arg_cos_add_sin_mul_I ⟨by linarith, by linarith⟩,
        fmod_sub_period (show (0:ℝ) < 2 * Real.pi by positivity).ne']
      exact fmod_eq_self (by positivity) hrr0 hrr1
  · exact Real.arcsin_sin hdr1.le hdr2.le

theorem cartToSphere_sphereToCart (M : RMath ℝ) (hM : M.IsStd) (ra dec : ℝ)
    (h0 : 0 ≤ ra) (h1 : ra < 360) (h2 : -90 < dec) (h3 : dec < 90) :
    cartToSphere M (tripleToVec (sphereToCart M ra dec)) =
      (Real.pi / 180 * ra, Real.pi / 180 * dec) := by
  obtain ⟨hpi, hcos, hsin, htan, hsqrt, hasin, hacos, hatan, hatan2⟩ := hM
  have hpipos := Real.pi_pos
  have hd180 : (0 : ℝ) < Real.pi / 180 := by positivity
  have hS : tripleToVec (sphereToCart M ra dec) =
      ![Real.cos (Real.pi / 180 * ra) * Real.cos (Real.pi / 180 * dec),
        Real.sin (Real.pi / 180 * ra) * Real.cos (Real.pi / 180 * dec),
        Real.sin (Real.pi / 180 * dec)] := by
    simp only [sphereToCart, deg2rad, hpi, hcos, hsin, tripleToVec]
  rw [hS]
  apply roundtrip_core M hpi hsqrt hasin hatan2
  · exact mul_nonneg hd180.le h0
  · have hmul := mul_lt_mul_of_pos_left h1 hd180
    have he : Real.pi / 180 * (360 : ℝ) = 2 * Real.pi := by ring
    linarith
  · have hmul := mul_lt_mul_of_pos_left h2 hd180
    have he : Real.pi / 180 * (-90 : ℝ) = -(Real.pi / 2) := by ring
    linarith
  · have hmul := mul_lt_mul_of_pos_left h3 hd180
    have he : Real.pi / 180 * (90 : ℝ) = Real.pi / 2 := by ring
    linarith

/-- C5 (counterexample): `cartToSphere` returns radians, so the round
trip does not reproduce the degree pair: starting from
`(ra, dec) = (90°, 0°)` it returns `(π/2, 0) ≠ (90, 0)`. -/
theorem sphereCart_roundtrip_counterexample :
    cartToSphere (⟨Real.pi, Real.cos, Real.sin, Real.tan, Real.sqrt, Real.arcsin,
        Real.arccos, Real.arctan, fun y x => Complex.arg ⟨x, y⟩⟩ : RMath ℝ)
      (tripleToVec (sphereToCart
        (⟨Real.pi, Real.cos, Real.sin, Real.tan, Real.sqrt, Real.arcsin,
          Real.arccos, Real.arctan, fun y x => Complex.arg ⟨x, y⟩⟩ : RMath ℝ) 90 0)) ≠
      ((90 : ℝ), (0 : ℝ)) := by
  have h := cartToSphere_sphereToCart
    (⟨Real.pi, Real.cos, Real.sin, Real.tan, Real.sqrt, Real.arcsin,
      Real.arccos, Real.arctan, fun y x => Complex.arg ⟨x, y⟩⟩ : RMath ℝ)
    ⟨rfl, rfl, rfl, rfl, rfl, rfl, rfl, rfl, rfl⟩ 90 0
    (by norm_num) (by norm_num) (by norm_num) (by norm_num)
  rw [h]
  intro hcon
  have h1 : Real.pi / 180 * 90 = 90 := congrArg Prod.fst hcon
  have hlt := Real.pi_lt_d2
  linarith

/-- C5 (amended): for `ra ∈ [0°, 360°)` and `dec ∈ (−90°, 90°)`,
converting with `sphereToCart` and back with `cartToSphere` reproduces
the original pair **expressed in radians**:
`(deg2rad · ra, deg2rad · dec)` — not the degree pair itself, since
`cartToSphere` returns radians. -/
theorem sphereCart_roundtrip_radians (M : RMath ℝ) (hM : M.IsStd) (ra dec : ℝ)
    (h0 : 0 ≤ ra) (h1 : ra < 360) (h2 : -90 < dec) (h3 : dec < 90) :
    cartToSphere M (tripleToVec (sphereToCart M ra dec)) =
      (Real.pi / 180 * ra, Real.pi / 180 * dec) :=
  cartToSphere_sphereToCart M hM ra dec h0 h1 h2 h3

/-- C5 (witness): the radian round trip at `(ra, dec) = (45°, 30°)`. -/
theorem sphereCart_roundtrip_radians_witness :
    (RMath.IsStd ⟨Real.pi, Real.cos, Real.sin, Real.tan, Real.sqrt, Real.arcsin,
        Real.arccos, Real.arctan, fun y x => Complex.arg ⟨x, y⟩⟩ ∧
      (0 : ℝ) ≤ 45 ∧ (45 : ℝ) < 360 ∧ (-90 : ℝ) < 30 ∧ (30 : ℝ) < 90) ∧
    cartToSphere (⟨Real.pi, Real.cos, Real.sin, Real.tan, Real.sqrt, Real.arcsin,
        Real.arccos, Real.arctan, fun y x => Complex.arg ⟨x, y⟩⟩ : RMath ℝ)
      (tripleToVec (sphereToCart
        (⟨Real.pi, Real.cos, Real.sin, Real.tan, Real.sqrt, Real.arcsin,
          Real.arccos, Real.arctan, fun y x => Complex.arg ⟨x, y⟩⟩ : RMath ℝ) 45 30)) =
      (Real.pi / 180 * 45, Real.pi / 180 * 30) :=
  ⟨⟨⟨rfl, rfl, rfl, rfl, rfl, rfl, rfl, rfl, rfl⟩,
    by norm_num, by norm_num, by norm_num, by norm_num⟩,
   sphereCart_roundtrip_radians
     (⟨Real.pi, Real.cos, Real.sin, Real.tan, Real.sqrt, Real.arcsin,
       Real.arccos, Real.arctan, fun y x => Complex.arg ⟨x, y⟩⟩ : RMath ℝ)
     ⟨rfl, rfl, rfl, rfl, rfl, rfl, rfl, rfl, rfl⟩ 45 30
     (by norm_num) (by norm_num) (by norm_num) (by norm_num)⟩
